import Mathlib

/-!
Shallow embedding of `src/smartsurvey.py`, centred on the two-row header
classifier `SurveyService._parse_questions` (lines 155-182), together with
proofs about it.

Modelling choices, each justified against the source:
* Python string cells become Lean `String`; the empty-cell test `cell != ''`
  becomes `cell ≠ ""`.
* Python exceptions raised by the classifier are `IndexError` (out-of-range
  list indexing, including `matrix[0]`/`matrix[1]` on a short matrix and
  `survey.questions[-1]` on an empty list) and `AssertionError` (the
  `assert matrix[1][i].lower() == 'other'` on line 176).  They are modelled
  by the inductive `PyError`.
* Python mutation persists even when an exception propagates, so every
  operation returns the (possibly partially mutated) survey together with
  `Option PyError`, rather than an `Except` that would drop the state.
* `survey.questions[-1].type is not SurveyQuestion.CHECKBOX_LIST` (line 173)
  uses object identity, but within this program the `type` field only ever
  holds `None` or one of the three interned module constants, so identity
  coincides with string equality; it is modelled as equality on
  `Option String`.
* `str.lower()` is modelled character-wise with `Char.toLower`, which agrees
  with Python on the ASCII letters occurring in the `'other'` comparison.
-/

namespace SmartSurvey

/-- `take n iterable` from the source: return the first `n` items as a list. -/
def take (n : Nat) (l : List α) : List α := List.take n l

/-- The Python exceptions the classifier can raise: `IndexError` from list
indexing and `AssertionError` from the `assert` on line 176. -/
inductive PyError where
  | indexError : PyError
  | assertionError : PyError
deriving DecidableEq

/-- `SurveyChoice`: a model of an answer choice (id defaults to `None`,
text to the empty string). -/
structure SurveyChoice where
  id : Option Nat := none
  text : String := ""
deriving DecidableEq

/-- `SurveyQuestion`: a model of a question; `type` starts out as `None`. -/
structure SurveyQuestion where
  id : Option Nat := none
  type : Option String := none
  text : String := ""
  choices : List SurveyChoice := []
deriving DecidableEq

/-- The class constant `SurveyQuestion.MULTIPLE_CHOICE`. -/
def SurveyQuestion.MULTIPLE_CHOICE : String := "multiple choice"

/-- The class constant `SurveyQuestion.CHECKBOX_LIST`. -/
def SurveyQuestion.CHECKBOX_LIST : String := "checkbox list"

/-- The class constant `SurveyQuestion.DROPDOWN_FREETEXT`. -/
def SurveyQuestion.DROPDOWN_FREETEXT : String := "dropdown with freetext other"

/-- `SurveyResponse`: a model of a survey response (never touched by the
classifier; `answers` models the Python dict as an association list). -/
structure SurveyResponse where
  id : Option Nat := none
  ip_address : String := ""
  timestamp : String := ""
  duplicate : Bool := false
  timespent : Nat := 0
  answers : List (Nat × String) := []
deriving DecidableEq

/-- `Survey`: the model populated by the service. -/
structure Survey where
  id : Option Nat := none
  title : String := ""
  comment : String := ""
  questions : List SurveyQuestion := []
  responses : List SurveyResponse := []
deriving DecidableEq

/-- Python list indexing `l[i]` for a non-negative index: `IndexError` when
out of range. -/
def pyIndex (l : List α) (i : Nat) : Except PyError α :=
  match l[i]? with
  | some x => Except.ok x
  | none => Except.error PyError.indexError

/-- Indexing `matrix[1][i]`: first `matrix[1]` (an `IndexError` when the
matrix has fewer than two rows), then the cell (an `IndexError` when the
choice row is shorter than `i + 1`). -/
def pyIndexRow (row : Option (List String)) (i : Nat) : Except PyError String :=
  match row with
  | none => Except.error PyError.indexError
  | some r => pyIndex r i

/-- Python `str.lower()`, character-wise (ASCII-faithful). -/
def pyLower (s : String) : String := String.mk (s.data.map Char.toLower)

/-- In-place mutation of the last element of a list (`xs[-1].f = ...`,
`xs[-1].xs.append(...)`).  The call sites in `_parse_questions` only reach it
with a non-empty list; on `[]` it is a no-op. -/
def updateLast (f : α → α) : List α → List α
  | [] => []
  | [x] => [f x]
  | x :: y :: rest => x :: updateLast f (y :: rest)

/-- Lines 164-167: a fresh `SurveyQuestion` with `text` set from the header
cell and `type` set to `MULTIPLE_CHOICE`. -/
def newQuestion (text : String) : SurveyQuestion :=
  { id := none, type := some SurveyQuestion.MULTIPLE_CHOICE, text := text, choices := [] }

/-- Line 172 / line 177: `survey.questions[-1].type = t`. -/
def setType (t : String) (q : SurveyQuestion) : SurveyQuestion :=
  { q with type := some t }

/-- Lines 180-182: build a `SurveyChoice` from the cell text and append it to
`survey.questions[-1].choices`. -/
def addChoice (cc : String) (q : SurveyQuestion) : SurveyQuestion :=
  { q with choices := q.choices ++ [{ id := none, text := cc }] }

/-- One iteration of the column loop of `_parse_questions` (lines 161-182)
at column `i`.  Returns the survey after the iteration together with the
exception the iteration raises, if any; mutations made before the exception
persist, as in Python. -/
def processColumn (row0 : List String) (row1 : Option (List String)) (survey : Survey)
    (i : Nat) : Survey × Option PyError :=
  match row0[i]? with
  | none => (survey, some PyError.indexError)
  | some headCell =>
    -- lines 161-168: `question_column` is set exactly when the header cell
    -- is non-empty, in which case a MULTIPLE_CHOICE question is appended
    let survey1 := if headCell ≠ "" then
        { survey with questions := survey.questions ++ [newQuestion headCell] }
      else survey
    -- line 169: `matrix[1][i]` is evaluated on every iteration
    match pyIndexRow row1 i with
    | Except.error e => (survey1, some e)
    | Except.ok choiceCell =>
      if choiceCell ≠ "" then
        if headCell ≠ "" then
          -- lines 170-172 then 180-182: mark CHECKBOX_LIST, append the choice
          let qs := updateLast (setType SurveyQuestion.CHECKBOX_LIST) survey1.questions
          ({ survey1 with questions := updateLast (addChoice choiceCell) qs }, none)
        else
          -- line 173: `survey.questions[-1]` raises IndexError when empty
          match survey1.questions.getLast? with
          | none => (survey1, some PyError.indexError)
          | some lastq =>
            if lastq.type ≠ some SurveyQuestion.CHECKBOX_LIST then
              if pyLower choiceCell = "other" then
                -- lines 176-179: the assert passes, the question becomes
                -- DROPDOWN_FREETEXT and `continue` skips the append
                let qs := updateLast (setType SurveyQuestion.DROPDOWN_FREETEXT) survey1.questions
                ({ survey1 with questions := qs }, none)
              else
                -- line 176: the assert fails
                (survey1, some PyError.assertionError)
            else
              -- lines 180-182: append the choice to the current question
              let qs := updateLast (addChoice choiceCell) survey1.questions
              ({ survey1 with questions := qs }, none)
      else
        (survey1, none)

/-- The column loop `for i in range(17, len(matrix[0]))`, stopping at the
first exception (which propagates out of the function). -/
def runColumns (row0 : List String) (row1 : Option (List String)) :
    List Nat → Survey → Survey × Option PyError
  | [], survey => (survey, none)
  | i :: rest, survey =>
    match processColumn row0 row1 survey i with
    | (s, none) => runColumns row0 row1 rest s
    | (s, some e) => (s, some e)

/-- `SurveyService._parse_questions` (lines 155-182): take the first two rows
of the iterable as the header matrix and run the column loop from index 17 to
`len(matrix[0]) - 1`.  `len(matrix[0])` itself raises `IndexError` when no
row is present. -/
def parse_questions (iterable : List (List String)) (survey : Survey) :
    Survey × Option PyError :=
  match (take 2 iterable)[0]? with
  | none => (survey, some PyError.indexError)
  | some row0 =>
    runColumns row0 (take 2 iterable)[1]? (List.range' 17 (row0.length - 17)) survey

/-- A question type actually assigned by the classifier. -/
def validType (q : SurveyQuestion) : Prop :=
  q.type = some SurveyQuestion.MULTIPLE_CHOICE ∨
  q.type = some SurveyQuestion.CHECKBOX_LIST ∨
  q.type = some SurveyQuestion.DROPDOWN_FREETEXT

/-- The question produced by a column whose header cell and choice cell are
both non-empty: lines 164-168 create it as MULTIPLE_CHOICE, line 172 turns it
into CHECKBOX_LIST and lines 180-182 append the choice cell. -/
def checkboxQuestion (hc cc : String) : SurveyQuestion :=
  { id := none, type := some SurveyQuestion.CHECKBOX_LIST, text := hc,
    choices := [{ id := none, text := cc }] }

/-- The order invariant carried through the loop: the questions so far
correspond, in order, to a strictly increasing list of already-processed
column indices (all below the bound `B`) whose non-empty header cells give
their texts; each question's choices correspond, in order, to a strictly
increasing list of processed columns whose non-empty choice cells give their
texts. -/
def OrderInv (row0 r1 : List String) (s : Survey) (B : Nat) : Prop :=
  ∃ cols : List Nat, List.Chain' (· < ·) cols ∧ (∀ c ∈ cols, c < B) ∧
    List.Forall₂ (fun c q => row0[c]? = some q.text ∧ q.text ≠ "") cols s.questions ∧
    ∀ q ∈ s.questions, ∃ cis : List Nat, List.Chain' (· < ·) cis ∧
      (∀ c ∈ cis, c < B) ∧
      List.Forall₂ (fun c ch => r1[c]? = some ch.text ∧ ch.text ≠ "") cis q.choices

theorem updateLast_concat (f : α → α) (l : List α) (x : α) :
    updateLast f (l ++ [x]) = l ++ [f x] := by
  induction l with
  | nil => rfl
  | cons a l ih =>
    cases l with
    | nil => rfl
    | cons b l => simpa [updateLast] using ih

theorem length_updateLast (f : α → α) (l : List α) :
    (updateLast f l).length = l.length := by
  induction l with
  | nil => rfl
  | cons a l ih =>
    cases l with
    | nil => rfl
    | cons b l => simpa [updateLast] using ih

theorem map_updateLast_eq (f : α → α) (g : α → β) (hf : ∀ a, g (f a) = g a)
    (l : List α) : (updateLast f l).map g = l.map g := by
  induction l with
  | nil => rfl
  | cons a l ih =>
    cases l with
    | nil => simp [updateLast, hf]
    | cons b l => simpa [updateLast] using ih

theorem mem_updateLast (f : α → α) (l : List α) (a : α)
    (h : a ∈ updateLast f l) : a ∈ l ∨ ∃ b, b ∈ l ∧ a = f b := by
  induction l with
  | nil => simp [updateLast] at h
  | cons x l ih =>
    cases l with
    | nil =>
      simp [updateLast] at h
      exact Or.inr ⟨x, by simp, h⟩
    | cons y l =>
      simp only [updateLast, List.mem_cons] at h
      rcases h with h | h
      · exact Or.inl (by simp [h])
      · rcases ih h with h' | ⟨b, hb, rfl⟩
        · exact Or.inl (List.mem_cons_of_mem _ h')
        · exact Or.inr ⟨b, List.mem_cons_of_mem _ hb, rfl⟩

theorem forall2_updateLast {P : γ → α → Prop} (f : α → α)
    (hf : ∀ c a, P c a → P c (f a)) :
    ∀ (l : List α) (cs : List γ), List.Forall₂ P cs l →
      List.Forall₂ P cs (updateLast f l)
  | [], _, h => by cases h; exact List.Forall₂.nil
  | [x], _, h => by
    cases h with
    | cons hP hr => cases hr; exact List.Forall₂.cons (hf _ _ hP) List.Forall₂.nil
  | x :: y :: rest, _, h => by
    cases h with
    | cons hP hr =>
      exact List.Forall₂.cons hP (forall2_updateLast f hf (y :: rest) _ hr)

theorem pyIndexRow_ok {row1 : Option (List String)} {i : Nat} {cc : String}
    (h : pyIndexRow row1 i = Except.ok cc) :
    ∃ r1, row1 = some r1 ∧ r1[i]? = some cc := by
  cases row1 with
  | none => simp [pyIndexRow] at h
  | some r1 =>
    refine ⟨r1, rfl, ?_⟩
    cases h1 : r1[i]? with
    | none => simp [pyIndexRow, pyIndex, h1] at h
    | some x => simp [pyIndexRow, pyIndex, h1] at h; exact congrArg some h

/-- Exhaustive description of a successful loop iteration: the five ways a
column can be classified (nothing / new MULTIPLE_CHOICE question / new
CHECKBOX_LIST question with its inline choice / extra choice appended to a
CHECKBOX_LIST question / "other" marker turning the question into
DROPDOWN_FREETEXT). -/
theorem processColumn_ok_cases {row0 : List String} {row1 : Option (List String)}
    {s s' : Survey} {i : Nat}
    (h : processColumn row0 row1 s i = (s', none)) :
    ∃ hc r1 cc, row0[i]? = some hc ∧ row1 = some r1 ∧ r1[i]? = some cc ∧
      ((hc = "" ∧ cc = "" ∧ s' = s) ∨
       (hc ≠ "" ∧ cc = "" ∧
         s' = { s with questions := s.questions ++ [newQuestion hc] }) ∨
       (hc ≠ "" ∧ cc ≠ "" ∧
         s' = { s with questions := s.questions ++ [checkboxQuestion hc cc] }) ∨
       (hc = "" ∧ cc ≠ "" ∧
         (∃ lastq, s.questions.getLast? = some lastq ∧
           lastq.type = some SurveyQuestion.CHECKBOX_LIST) ∧
         s' = { s with questions := updateLast (addChoice cc) s.questions }) ∨
       (hc = "" ∧ cc ≠ "" ∧ pyLower cc = "other" ∧
         (∃ lastq, s.questions.getLast? = some lastq ∧
           lastq.type ≠ some SurveyQuestion.CHECKBOX_LIST) ∧
         s' = { s with questions := updateLast (setType SurveyQuestion.DROPDOWN_FREETEXT) s.questions })) := by
  unfold processColumn at h
  cases h0 : row0[i]? with
  | none => rw [h0] at h; exact absurd h (by simp)
  | some hc =>
    rw [h0] at h
    refine ⟨hc, ?_⟩
    cases h1 : pyIndexRow row1 i with
    | error e =>
      rw [h1] at h
      by_cases hhc : hc = "" <;> simp [hhc] at h
    | ok cc =>
      rw [h1] at h
      obtain ⟨r1, hr1, hcell⟩ := pyIndexRow_ok h1
      refine ⟨r1, cc, rfl, hr1, hcell, ?_⟩
      by_cases hhc : hc = ""
      · -- no question column
        subst hhc
        simp only [ne_eq, not_true_eq_false, if_false, ite_false] at h
        by_cases hcc : cc = ""
        · subst hcc
          simp only [ne_eq, not_true_eq_false, if_false, ite_false] at h
          refine Or.inl ⟨rfl, rfl, ?_⟩
          injection h with ha hb
          exact ha.symm
        · simp only [ne_eq, hcc, not_false_eq_true, if_true, ite_true] at h
          cases h2 : s.questions.getLast? with
          | none => rw [h2] at h; exact absurd h (by simp)
          | some lastq =>
            rw [h2] at h
            by_cases ht : lastq.type = some SurveyQuestion.CHECKBOX_LIST
            · simp only [ht, ne_eq, not_true_eq_false, if_false, ite_false] at h
              refine Or.inr (Or.inr (Or.inr (Or.inl ⟨rfl, hcc, ⟨lastq, rfl, ht⟩, ?_⟩)))
              injection h with ha hb
              exact ha.symm
            · simp only [ne_eq, ht, not_false_eq_true, if_true, ite_true] at h
              by_cases hlow : pyLower cc = "other"
              · simp only [hlow, if_true, ite_true] at h
                refine Or.inr (Or.inr (Or.inr (Or.inr ⟨rfl, hcc, hlow, ⟨lastq, rfl, ht⟩, ?_⟩)))
                injection h with ha hb
                exact ha.symm
              · simp only [hlow, if_false, ite_false] at h
                exact absurd h (by simp)
      · -- question column
        simp only [ne_eq, hhc, not_false_eq_true, if_true, ite_true] at h
        by_cases hcc : cc = ""
        · subst hcc
          simp only [ne_eq, not_true_eq_false, if_false, ite_false] at h
          refine Or.inr (Or.inl ⟨hhc, rfl, ?_⟩)
          injection h with ha hb
          exact ha.symm
        · simp only [ne_eq, hcc, not_false_eq_true, if_true, ite_true] at h
          refine Or.inr (Or.inr (Or.inl ⟨hhc, hcc, ?_⟩))
          injection h with ha hb
          rw [← ha, updateLast_concat, updateLast_concat]
          rfl

/-- Every outcome of a loop iteration (success or exception) only rewrites
the `questions` field, and only by appending questions: the texts of the
questions already present survive as a prefix. -/
theorem processColumn_fst (row0 : List String) (row1 : Option (List String))
    (s : Survey) (i : Nat) :
    ∃ qs, (processColumn row0 row1 s i).1 = { s with questions := qs } ∧
      ∃ t, qs.map SurveyQuestion.text = s.questions.map SurveyQuestion.text ++ t := by
  have htext1 : ∀ q, (setType SurveyQuestion.CHECKBOX_LIST q).text = q.text := fun _ => rfl
  have htext2 : ∀ q, (setType SurveyQuestion.DROPDOWN_FREETEXT q).text = q.text := fun _ => rfl
  have htext3 : ∀ cc q, (addChoice cc q).text = q.text := fun _ _ => rfl
  unfold processColumn
  cases h0 : row0[i]? with
  | none => exact ⟨s.questions, rfl, [], by simp⟩
  | some hc =>
    by_cases hhc : hc = ""
    · subst hhc
      simp only [ne_eq, not_true_eq_false, if_false, ite_false]
      cases h1 : pyIndexRow row1 i with
      | error e => exact ⟨s.questions, rfl, [], by simp⟩
      | ok cc =>
        by_cases hcc : cc = ""
        · subst hcc
          simp only [ne_eq, not_true_eq_false, if_false, ite_false]
          exact ⟨s.questions, rfl, [], by simp⟩
        · simp only [ne_eq, hcc, not_false_eq_true, if_true, ite_true]
          cases h2 : s.questions.getLast? with
          | none => exact ⟨s.questions, rfl, [], by simp⟩
          | some lastq =>
            by_cases ht : lastq.type = some SurveyQuestion.CHECKBOX_LIST
            · simp only [ht, ne_eq, not_true_eq_false, if_false, ite_false]
              exact ⟨updateLast (addChoice cc) s.questions, rfl, [],
                by rw [map_updateLast_eq _ _ (htext3 cc)]; simp⟩
            · simp only [ne_eq, ht, not_false_eq_true, if_true, ite_true]
              by_cases hlow : pyLower cc = "other"
              · simp only [hlow, if_true, ite_true]
                exact ⟨updateLast (setType SurveyQuestion.DROPDOWN_FREETEXT) s.questions, rfl,
                  [], by rw [map_updateLast_eq _ _ htext2]; simp⟩
              · simp only [hlow, if_false, ite_false]
                exact ⟨s.questions, rfl, [], by simp⟩
    · simp only [ne_eq, hhc, not_false_eq_true, if_true, ite_true]
      cases h1 : pyIndexRow row1 i with
      | error e =>
        exact ⟨s.questions ++ [newQuestion hc], rfl, [hc], by simp [newQuestion]⟩
      | ok cc =>
        by_cases hcc : cc = ""
        · subst hcc
          simp only [ne_eq, not_true_eq_false, if_false, ite_false]
          exact ⟨s.questions ++ [newQuestion hc], rfl, [hc], by simp [newQuestion]⟩
        · simp only [ne_eq, hcc, not_false_eq_true, if_true, ite_true]
          refine ⟨_, rfl, [hc], ?_⟩
          rw [map_updateLast_eq _ _ (htext3 cc), map_updateLast_eq _ _ htext1]
          simp [newQuestion]

/-- The loop only rewrites `questions`, preserving the existing question
texts as a prefix, whether the run succeeds or raises. -/
theorem runColumns_fst (row0 : List String) (row1 : Option (List String)) :
    ∀ (idxs : List Nat) (s : Survey),
    ∃ qs, (runColumns row0 row1 idxs s).1 = { s with questions := qs } ∧
      ∃ t, qs.map SurveyQuestion.text = s.questions.map SurveyQuestion.text ++ t
  | [], s => ⟨s.questions, rfl, [], by simp⟩
  | i :: rest, s => by
    unfold runColumns
    cases hp : processColumn row0 row1 s i with
    | mk s₁ e? =>
      obtain ⟨qs₁, hqs₁, t₁, ht₁⟩ := processColumn_fst row0 row1 s i
      rw [hp] at hqs₁
      cases e? with
      | some e => exact ⟨qs₁, hqs₁, t₁, ht₁⟩
      | none =>
        replace hqs₁ : s₁ = { s with questions := qs₁ } := hqs₁
        subst hqs₁
        obtain ⟨qs₂, hqs₂, t₂, ht₂⟩ := runColumns_fst row0 row1 rest _
        refine ⟨qs₂, hqs₂, t₁ ++ t₂, ?_⟩
        rw [show ({ s with questions := qs₁ } : Survey).questions = qs₁ from rfl] at ht₂
        rw [ht₂, ht₁, List.append_assoc]

/-- `_parse_questions` only rewrites `questions`, and existing question texts
survive as a prefix, whether the run succeeds or raises. -/
theorem parse_questions_fst (iterable : List (List String)) (s : Survey) :
    ∃ qs, (parse_questions iterable s).1 = { s with questions := qs } ∧
      ∃ t, qs.map SurveyQuestion.text = s.questions.map SurveyQuestion.text ++ t := by
  unfold parse_questions
  cases h0 : (take 2 iterable)[0]? with
  | none => exact ⟨s.questions, rfl, [], by simp⟩
  | some row0 => exact runColumns_fst row0 (take 2 iterable)[1]? _ s

theorem validType_newQuestion (hc : String) : validType (newQuestion hc) :=
  Or.inl rfl

theorem validType_setType_checkbox (q : SurveyQuestion) :
    validType (setType SurveyQuestion.CHECKBOX_LIST q) :=
  Or.inr (Or.inl rfl)

theorem validType_setType_dropdown (q : SurveyQuestion) :
    validType (setType SurveyQuestion.DROPDOWN_FREETEXT q) :=
  Or.inr (Or.inr rfl)

theorem validType_addChoice (cc : String) (q : SurveyQuestion)
    (h : validType q) : validType (addChoice cc q) := h

/-- Each iteration only ever assigns one of the three class constants as a
question type, so the "every question has an assigned type" invariant is
preserved whether or not the iteration raises. -/
theorem processColumn_validType (row0 : List String) (row1 : Option (List String))
    (s : Survey) (i : Nat) (hinv : ∀ q ∈ s.questions, validType q) :
    ∀ q ∈ (processColumn row0 row1 s i).1.questions, validType q := by
  unfold processColumn
  cases h0 : row0[i]? with
  | none => exact hinv
  | some hc =>
    by_cases hhc : hc = ""
    · subst hhc
      simp only [ne_eq, not_true_eq_false, if_false, ite_false]
      cases h1 : pyIndexRow row1 i with
      | error e => exact hinv
      | ok cc =>
        by_cases hcc : cc = ""
        · subst hcc
          simp only [ne_eq, not_true_eq_false, if_false, ite_false]
          exact hinv
        · simp only [ne_eq, hcc, not_false_eq_true, if_true, ite_true]
          cases h2 : s.questions.getLast? with
          | none => exact hinv
          | some lastq =>
            by_cases ht : lastq.type = some SurveyQuestion.CHECKBOX_LIST
            · simp only [ht, ne_eq, not_true_eq_false, if_false, ite_false]
              intro q hq
              rcases mem_updateLast _ _ _ hq with hq' | ⟨b, hb, rfl⟩
              · exact hinv q hq'
              · exact validType_addChoice _ _ (hinv b hb)
            · simp only [ne_eq, ht, not_false_eq_true, if_true, ite_true]
              by_cases hlow : pyLower cc = "other"
              · simp only [hlow, if_true, ite_true]
                intro q hq
                rcases mem_updateLast _ _ _ hq with hq' | ⟨b, hb, rfl⟩
                · exact hinv q hq'
                · exact validType_setType_dropdown b
              · simp only [hlow, if_false, ite_false]
                exact hinv
    · simp only [ne_eq, hhc, not_false_eq_true, if_true, ite_true]
      have hinv1 : ∀ q ∈ s.questions ++ [newQuestion hc], validType q := by
        intro q hq
        rcases List.mem_append.1 hq with hq' | hq'
        · exact hinv q hq'
        · rw [List.mem_singleton.1 hq']; exact validType_newQuestion hc
      cases h1 : pyIndexRow row1 i with
      | error e => exact hinv1
      | ok cc =>
        by_cases hcc : cc = ""
        · subst hcc
          simp only [ne_eq, not_true_eq_false, if_false, ite_false]
          exact hinv1
        · simp only [ne_eq, hcc, not_false_eq_true, if_true, ite_true]
          intro q hq
          rcases mem_updateLast _ _ _ hq with hq' | ⟨b, hb, rfl⟩
          · rcases mem_updateLast _ _ _ hq' with hq'' | ⟨b, hb, rfl⟩
            · exact hinv1 q hq''
            · exact validType_setType_checkbox b
          · rcases mem_updateLast _ _ _ hb with hb' | ⟨c, hc', rfl⟩
            · exact validType_addChoice _ _ (hinv1 b hb')
            · exact validType_addChoice _ _ (validType_setType_checkbox c)

theorem runColumns_validType (row0 : List String) (row1 : Option (List String)) :
    ∀ (idxs : List Nat) (s : Survey), (∀ q ∈ s.questions, validType q) →
    ∀ q ∈ (runColumns row0 row1 idxs s).1.questions, validType q
  | [], s, hinv => hinv
  | i :: rest, s, hinv => by
    unfold runColumns
    cases hp : processColumn row0 row1 s i with
    | mk s₁ e? =>
      have hinv1 : ∀ q ∈ s₁.questions, validType q := by
        have := processColumn_validType row0 row1 s i hinv
        rwa [hp] at this
      cases e? with
      | some e => exact hinv1
      | none => exact runColumns_validType row0 row1 rest s₁ hinv1

/-- A successful iteration appends exactly one question when the header cell
is non-empty and none otherwise. -/
theorem processColumn_ok_length {row0 : List String} {row1 : Option (List String)}
    {s s' : Survey} {i : Nat} (h : processColumn row0 row1 s i = (s', none)) :
    ∃ hc, row0[i]? = some hc ∧
      s'.questions.length = s.questions.length + (if hc = "" then 0 else 1) := by
  obtain ⟨hc, r1, cc, h0, hr1, hcell, hcases⟩ := processColumn_ok_cases h
  refine ⟨hc, h0, ?_⟩
  rcases hcases with ⟨he, _, rfl⟩ | ⟨hne, _, rfl⟩ | ⟨hne, _, rfl⟩ |
    ⟨he, _, _, rfl⟩ | ⟨he, _, _, _, rfl⟩
  · simp [he]
  · simp [hne]
  · simp [hne]
  · simp [he, length_updateLast]
  · simp [he, length_updateLast]

/-- A successful run of the loop appends one question per processed column
with a non-empty header cell. -/
theorem runColumns_ok_length (row0 : List String) (row1 : Option (List String)) :
    ∀ (idxs : List Nat) (s s' : Survey),
    runColumns row0 row1 idxs s = (s', none) →
    s'.questions.length =
      s.questions.length + idxs.countP (fun i => row0.getD i "" != "")
  | [], s, s', h => by
    unfold runColumns at h
    injection h with h1 h2
    simp [← h1]
  | i :: rest, s, s', h => by
    unfold runColumns at h
    cases hp : processColumn row0 row1 s i with
    | mk s₁ e? =>
      rw [hp] at h
      cases e? with
      | some e => exact absurd h (by simp)
      | none =>
        obtain ⟨hc, h0, hlen⟩ := processColumn_ok_length hp
        have hrest := runColumns_ok_length row0 row1 rest s₁ s' h
        have hgetd : row0.getD i "" = hc := by
          rw [List.getD_eq_getElem?_getD, h0]; rfl
        rw [List.countP_cons, hrest, hlen, hgetd]
        by_cases hhc : hc = ""
        · simp [hhc]
        · simp only [hhc, if_false, ite_false, bne_iff_ne, ne_eq,
            not_false_eq_true, if_true, ite_true]
          omega

theorem map_getD_range'_shift (x : α) (xs : List α) (d : α) :
    ∀ (n k : Nat), (List.range' (k + 1) n).map (fun i => (x :: xs).getD i d) =
      (List.range' k n).map (fun i => xs.getD i d)
  | 0, _ => rfl
  | n + 1, k => by
    rw [List.range'_succ, List.range'_succ]
    simp only [List.map_cons, List.getD_cons_succ]
    rw [map_getD_range'_shift x xs d n (k + 1)]

theorem drop_eq_map_range' (d : α) :
    ∀ (l : List α) (k : Nat),
      l.drop k = (List.range' k (l.length - k)).map (fun i => l.getD i d)
  | [], k => by simp
  | x :: xs, 0 => by
    rw [List.drop_zero, Nat.sub_zero, List.length_cons, List.range'_succ]
    simp only [List.map_cons, List.getD_cons_zero]
    rw [map_getD_range'_shift x xs d xs.length 0]
    have hxs := drop_eq_map_range' d xs 0
    rw [List.drop_zero, Nat.sub_zero] at hxs
    rw [← hxs]
  | x :: xs, k + 1 => by
    rw [List.drop_succ_cons, List.length_cons, Nat.succ_sub_succ]
    rw [map_getD_range'_shift x xs d (xs.length - k) k]
    exact drop_eq_map_range' d xs k

/-- Counting non-empty cells from column 17 on equals counting over the
processed index range. -/
theorem countP_drop_17 (l : List String) :
    (l.drop 17).countP (fun c => c != "") =
      (List.range' 17 (l.length - 17)).countP (fun i => l.getD i "" != "") := by
  rw [ drop_eq_map_range' "" l 17, List.countP_map]
  rfl

/-- An iteration reads nothing of the rows besides the two cells of its own
column. -/
theorem processColumn_congr {row0 row0' : List String} {row1 row1' : Option (List String)}
    (s : Survey) (i : Nat) (h0 : row0[i]? = row0'[i]?)
    (h1 : pyIndexRow row1 i = pyIndexRow row1' i) :
    processColumn row0 row1 s i = processColumn row0' row1' s i := by
  unfold processColumn
  rw [h0, h1]

/-- The loop reads nothing of the rows besides the cells of the processed
columns. -/
theorem runColumns_congr {row0 row0' : List String} {row1 row1' : Option (List String)} :
    ∀ (idxs : List Nat) (s : Survey),
    (∀ i ∈ idxs, row0[i]? = row0'[i]? ∧ pyIndexRow row1 i = pyIndexRow row1' i) →
    runColumns row0 row1 idxs s = runColumns row0' row1' idxs s
  | [], _, _ => rfl
  | i :: rest, s, hag => by
    unfold runColumns
    have hcongr := processColumn_congr s i (hag i (List.mem_cons_self i rest)).1
      (hag i (List.mem_cons_self i rest)).2
    rw [← hcongr]
    cases hp : processColumn row0 row1 s i with
    | mk s₁ e? =>
      cases e? with
      | some e => rfl
      | none =>
        exact runColumns_congr rest s₁ (fun j hj => hag j (List.mem_cons_of_mem _ hj))

theorem chain'_lt_snoc {l : List Nat} {i : Nat} (h : List.Chain' (· < ·) l)
    (hb : ∀ j ∈ l, j < i) : List.Chain' (· < ·) (l ++ [i]) := by
  rw [List.chain'_append]
  refine ⟨h, List.chain'_singleton i, ?_⟩
  intro x hx y hy
  have hxl : x ∈ l := List.mem_of_getLast?_eq_some hx
  have hyi : y = i := by
    simp only [List.head?_cons, Option.mem_def, Option.some.injEq] at hy
    exact hy.symm
  exact hyi ▸ hb x hxl

theorem forall2_snoc {P : γ → α → Prop} {cs : List γ} {l : List α} {c : γ} {a : α}
    (h : List.Forall₂ P cs l) (hP : P c a) :
    List.Forall₂ P (cs ++ [c]) (l ++ [a]) := by
  induction h with
  | nil => exact List.Forall₂.cons hP List.Forall₂.nil
  | cons h1 _ ih => exact List.Forall₂.cons h1 ih

theorem OrderInv.mono {row0 r1 : List String} {s : Survey} {B B' : Nat}
    (h : OrderInv row0 r1 s B) (hBB : B ≤ B') : OrderInv row0 r1 s B' := by
  obtain ⟨cols, hchain, hbound, hf2, hch⟩ := h
  refine ⟨cols, hchain, fun c hc => lt_of_lt_of_le (hbound c hc) hBB, hf2, ?_⟩
  intro q hq
  obtain ⟨cis, hcis1, hcis2, hcis3⟩ := hch q hq
  exact ⟨cis, hcis1, fun c hc => lt_of_lt_of_le (hcis2 c hc) hBB, hcis3⟩

/-- A successful iteration at column `i ≥ B` preserves the order invariant,
raising the bound to `i + 1`. -/
theorem processColumn_orderInv {row0 r1 : List String} {s s' : Survey} {i B : Nat}
    (h : processColumn row0 (some r1) s i = (s', none))
    (hB : B ≤ i) (hinv : OrderInv row0 r1 s B) :
    OrderInv row0 r1 s' (i + 1) := by
  obtain ⟨cols, hchain, hbound, hf2, hch⟩ := hinv
  obtain ⟨hc, r1', cc, h0, hr1, hcell, hcases⟩ := processColumn_ok_cases h
  have hr1' : r1' = r1 := by injection hr1 with h'; exact h'.symm
  subst hr1'
  have hboundi : ∀ c ∈ cols, c < i := fun c hcm => lt_of_lt_of_le (hbound c hcm) hB
  have hbound1 : ∀ c ∈ cols, c < i + 1 :=
    fun c hcm => Nat.lt_succ_of_lt (hboundi c hcm)
  rcases hcases with ⟨he, hce, rfl⟩ | ⟨hne, hce, rfl⟩ | ⟨hne, hnce, rfl⟩ |
    ⟨he, hnce, ⟨lastq, hlast, hlt⟩, rfl⟩ | ⟨he, hnce, hlow, ⟨lastq, hlast, hlt⟩, rfl⟩
  · -- nothing happened this column
    exact OrderInv.mono ⟨cols, hchain, hbound, hf2, hch⟩ (Nat.le_succ_of_le hB)
  · -- a MULTIPLE_CHOICE question was appended, with no choices yet
    refine ⟨cols ++ [i], chain'_lt_snoc hchain hboundi, ?_, ?_, ?_⟩
    · intro c hcm
      rcases List.mem_append.1 hcm with h' | h'
      · exact hbound1 c h'
      · rw [List.mem_singleton.1 h']; exact Nat.lt_succ_self i
    · exact forall2_snoc hf2 ⟨h0, hne⟩
    · intro q hq
      rcases List.mem_append.1 hq with h' | h'
      · obtain ⟨cis, hcis1, hcis2, hcis3⟩ := hch q h'
        exact ⟨cis, hcis1,
          fun c hcm => Nat.lt_succ_of_lt (lt_of_lt_of_le (hcis2 c hcm) hB), hcis3⟩
      · rw [List.mem_singleton.1 h']
        exact ⟨[], List.chain'_nil, by simp, List.Forall₂.nil⟩
  · -- a CHECKBOX_LIST question was appended together with its inline choice
    refine ⟨cols ++ [i], chain'_lt_snoc hchain hboundi, ?_, ?_, ?_⟩
    · intro c hcm
      rcases List.mem_append.1 hcm with h' | h'
      · exact hbound1 c h'
      · rw [List.mem_singleton.1 h']; exact Nat.lt_succ_self i
    · exact forall2_snoc hf2 ⟨h0, hne⟩
    · intro q hq
      rcases List.mem_append.1 hq with h' | h'
      · obtain ⟨cis, hcis1, hcis2, hcis3⟩ := hch q h'
        exact ⟨cis, hcis1,
          fun c hcm => Nat.lt_succ_of_lt (lt_of_lt_of_le (hcis2 c hcm) hB), hcis3⟩
      · rw [List.mem_singleton.1 h']
        refine ⟨[i], List.chain'_singleton i, by simp, ?_⟩
        exact List.Forall₂.cons ⟨hcell, hnce⟩ List.Forall₂.nil
  · -- a choice was appended to the last (CHECKBOX_LIST) question
    refine ⟨cols, hchain, hbound1, ?_, ?_⟩
    · exact forall2_updateLast (addChoice cc) (fun c q hq => hq) _ _ hf2
    · intro q hq
      rcases mem_updateLast _ _ _ hq with h' | ⟨b, hb, rfl⟩
      · obtain ⟨cis, hcis1, hcis2, hcis3⟩ := hch q h'
        exact ⟨cis, hcis1,
          fun c hcm => Nat.lt_succ_of_lt (lt_of_lt_of_le (hcis2 c hcm) hB), hcis3⟩
      · obtain ⟨cis, hcis1, hcis2, hcis3⟩ := hch b hb
        have hcisi : ∀ c ∈ cis, c < i :=
          fun c hcm => lt_of_lt_of_le (hcis2 c hcm) hB
        refine ⟨cis ++ [i], chain'_lt_snoc hcis1 hcisi, ?_, ?_⟩
        · intro c hcm
          rcases List.mem_append.1 hcm with h'' | h''
          · exact Nat.lt_succ_of_lt (hcisi c h'')
          · rw [List.mem_singleton.1 h'']; exact Nat.lt_succ_self i
        · exact forall2_snoc hcis3 ⟨hcell, hnce⟩
  · -- the "other" marker retyped the last question; texts and choices survive
    refine ⟨cols, hchain, hbound1, ?_, ?_⟩
    · exact forall2_updateLast (setType SurveyQuestion.DROPDOWN_FREETEXT) (fun c q hq => hq) _ _ hf2
    · intro q hq
      rcases mem_updateLast _ _ _ hq with h' | ⟨b, hb, rfl⟩
      · obtain ⟨cis, hcis1, hcis2, hcis3⟩ := hch q h'
        exact ⟨cis, hcis1,
          fun c hcm => Nat.lt_succ_of_lt (lt_of_lt_of_le (hcis2 c hcm) hB), hcis3⟩
      · obtain ⟨cis, hcis1, hcis2, hcis3⟩ := hch b hb
        exact ⟨cis, hcis1,
          fun c hcm => Nat.lt_succ_of_lt (lt_of_lt_of_le (hcis2 c hcm) hB), hcis3⟩

/-- A successful run over a sorted list of indices above the bound preserves
the order invariant. -/
theorem runColumns_orderInv {row0 r1 : List String} :
    ∀ (idxs : List Nat) (s s' : Survey) (B : Nat),
    List.Pairwise (· < ·) idxs → (∀ j ∈ idxs, B ≤ j) →
    OrderInv row0 r1 s B →
    runColumns row0 (some r1) idxs s = (s', none) →
    ∃ B', OrderInv row0 r1 s' B'
  | [], s, s', B, _, _, hinv, h => by
    unfold runColumns at h
    injection h with h1 _
    exact ⟨B, h1 ▸ hinv⟩
  | i :: rest, s, s', B, hpw, hge, hinv, h => by
    unfold runColumns at h
    cases hp : processColumn row0 (some r1) s i with
    | mk s₁ e? =>
      rw [hp] at h
      cases e? with
      | some e => exact absurd h (by simp)
      | none =>
        have hstep := processColumn_orderInv hp (hge i (List.mem_cons_self i rest)) hinv
        rcases List.pairwise_cons.1 hpw with ⟨hlt, hpw'⟩
        exact runColumns_orderInv rest s₁ s' (i + 1) hpw'
          (fun j hj => Nat.succ_le_of_lt (hlt j hj)) hstep h

/-- C1 counterexample: an 18-column header row whose only non-empty cell sits
at column 0 (choice row all empty, lengths equal).  The run raises nothing and
appends no question, although the header row has one non-empty cell — the
claim's count over the whole header row fails because columns 0-16 are never
read. -/
theorem parse_questions_count_whole_row_cex :
    (parse_questions [["Q"] ++ List.replicate 17 "", List.replicate 18 ""] {}).2 = none ∧
    (("Q" :: List.replicate 17 "").countP (fun c => c != "")) = 1 ∧
    (parse_questions [["Q"] ++ List.replicate 17 "", List.replicate 18 ""] {}).1.questions.length = 0 ∧
    (parse_questions [["Q"] ++ List.replicate 17 "", List.replicate 18 ""] {}).1.questions.length ≠
      ("Q" :: List.replicate 17 "").countP (fun c => c != "") := by
  refine ⟨by decide, by decide, by decide, by decide⟩

/-- C1 (amended): for header/choice rows of equal length, a run of
`_parse_questions` that raises no exception appends exactly as many questions
as there are non-empty header cells at column indices 17 and onward. -/
theorem parse_questions_question_count (row0 row1 : List String)
    (rest : List (List String)) (s : Survey) (hlen : row0.length = row1.length)
    (hok : (parse_questions (row0 :: row1 :: rest) s).2 = none) :
    (parse_questions (row0 :: row1 :: rest) s).1.questions.length =
      s.questions.length + (row0.drop 17).countP (fun c => c != "") := by
  have hred : parse_questions (row0 :: row1 :: rest) s =
      runColumns row0 (some row1) (List.range' 17 (row0.length - 17)) s := rfl
  rw [hred] at hok ⊢
  cases hrc : runColumns row0 (some row1) (List.range' 17 (row0.length - 17)) s with
  | mk s' e? =>
    cases e? with
    | some e => rw [hrc] at hok; exact Option.noConfusion hok
    | none =>
      have hlen' := runColumns_ok_length row0 (some row1) _ s s' hrc
      rw [countP_drop_17]
      exact hlen'

/-- C1 witness: a concrete equal-length pair with two non-empty header cells
past column 17, on which the amended count theorem applies. -/
theorem parse_questions_question_count_witness :
    (List.replicate 17 "" ++ ["Q1", "", "Q2"]).length =
      (List.replicate 17 "" ++ ["A", "", ""]).length ∧
    (parse_questions [List.replicate 17 "" ++ ["Q1", "", "Q2"], List.replicate 17 "" ++ ["A", "", ""]] {}).2 = none ∧
    (parse_questions [List.replicate 17 "" ++ ["Q1", "", "Q2"], List.replicate 17 "" ++ ["A", "", ""]] {}).1.questions.length =
      ({} : Survey).questions.length +
        ((List.replicate 17 "" ++ ["Q1", "", "Q2"]).drop 17).countP (fun c => c != "") :=
  ⟨by decide, by decide,
    parse_questions_question_count (List.replicate 17 "" ++ ["Q1", "", "Q2"])
      (List.replicate 17 "" ++ ["A", "", ""]) [] {} (by decide) (by decide)⟩

/-- C2: the code at a non-empty choice cell in a column where no question has
ever been appended: `survey.questions[-1]` on line 173 raises a bare
IndexError — precisely the out-of-range indexing fault the claim says cannot
happen; no NoCurrentQuestion error exists anywhere in the code. -/
theorem choice_before_any_question_raises_index_fault :
    parse_questions [List.replicate 18 "", List.replicate 17 "" ++ ["x"]] {} =
      ({}, some PyError.indexError) := by decide

/-- C3: a column with an empty header cell whose non-empty choice cell is not
case-insensitively "other", reached while the survey's current (last)
question exists and is not CHECKBOX_LIST, makes the `assert` on line 176
fail: the loop stops at once, and the assertion failure — the code's
realization of the spec's UnexpectedChoiceCell — is the run's outcome,
surfaced to the caller and distinct from an out-of-range IndexError. -/
theorem unexpected_choice_cell_assertion_surfaced
    (row0 r1 : List String) (rest : List Nat) (s : Survey) (i : Nat)
    (lastq : SurveyQuestion)
    (hhead : row0[i]? = some "")
    (hcc : ∃ cc, r1[i]? = some cc ∧ cc ≠ "" ∧ pyLower cc ≠ "other")
    (hlast : s.questions.getLast? = some lastq)
    (htype : lastq.type ≠ some SurveyQuestion.CHECKBOX_LIST) :
    runColumns row0 (some r1) (i :: rest) s = (s, some PyError.assertionError) := by
  obtain ⟨cc, hcell, hne, hlow⟩ := hcc
  have hpc : processColumn row0 (some r1) s i = (s, some PyError.assertionError) := by
    unfold processColumn
    rw [hhead]
    simp only [ne_eq, not_true_eq_false, if_false, ite_false]
    rw [show pyIndexRow (some r1) i = Except.ok cc from by
      simp [pyIndexRow, pyIndex, hcell]]
    simp only [ne_eq, hne, not_false_eq_true, if_true, ite_true, hlast, htype,
      hlow, if_false, ite_false, eq_self_iff_true]
  unfold runColumns
  rw [hpc]

/-- C3 witness: a concrete survey holding one MULTIPLE_CHOICE question, an
empty header cell and the choice cell "B" at column 17. -/
theorem unexpected_choice_cell_assertion_surfaced_witness :
    runColumns (List.replicate 18 "") (some (List.replicate 17 "" ++ ["B"])) [17]
      { questions := [{ type := some SurveyQuestion.MULTIPLE_CHOICE, text := "Q" }] } =
      ({ questions := [{ type := some SurveyQuestion.MULTIPLE_CHOICE, text := "Q" }] },
        some PyError.assertionError) :=
  unexpected_choice_cell_assertion_surfaced (List.replicate 18 "")
    (List.replicate 17 "" ++ ["B"]) []
    { questions := [{ type := some SurveyQuestion.MULTIPLE_CHOICE, text := "Q" }] } 17
    { type := some SurveyQuestion.MULTIPLE_CHOICE, text := "Q" } (by decide)
    ⟨"B", by decide, by decide, by decide⟩ (by decide) (by decide)

/-- C4: a column whose header cell is empty and whose non-empty choice cell
is case-insensitively "other", reached while the last appended question is
not CHECKBOX_LIST, sets that question's type to DROPDOWN_FREETEXT and
appends no choice (`continue` on line 179): every question's choice list —
including the retyped question's — is exactly as before, and the loop goes
on with the remaining columns. -/
theorem other_marker_sets_dropdown_freetext
    (row0 r1 : List String) (rest : List Nat) (s : Survey) (i : Nat)
    (lastq : SurveyQuestion)
    (hhead : row0[i]? = some "")
    (hcc : ∃ cc, r1[i]? = some cc ∧ cc ≠ "" ∧ pyLower cc = "other")
    (hlast : s.questions.getLast? = some lastq)
    (htype : lastq.type ≠ some SurveyQuestion.CHECKBOX_LIST) :
    runColumns row0 (some r1) (i :: rest) s =
      runColumns row0 (some r1) rest
        { s with questions := updateLast (setType SurveyQuestion.DROPDOWN_FREETEXT) s.questions } ∧
    (updateLast (setType SurveyQuestion.DROPDOWN_FREETEXT) s.questions).map SurveyQuestion.choices =
      s.questions.map SurveyQuestion.choices := by
  obtain ⟨cc, hcell, hne, hlow⟩ := hcc
  have hpc : processColumn row0 (some r1) s i =
      ({ s with questions := updateLast (setType SurveyQuestion.DROPDOWN_FREETEXT) s.questions },
        none) := by
    unfold processColumn
    rw [hhead]
    simp only [ne_eq, not_true_eq_false, if_false, ite_false]
    rw [show pyIndexRow (some r1) i = Except.ok cc from by
      simp [pyIndexRow, pyIndex, hcell]]
    simp only [ne_eq, hne, not_false_eq_true, if_true, ite_true, hlast, htype,
      hlow, eq_self_iff_true]
  refine ⟨?_, map_updateLast_eq (setType SurveyQuestion.DROPDOWN_FREETEXT)
    SurveyQuestion.choices (fun q => rfl) s.questions⟩
  show (match processColumn row0 (some r1) s i with
    | (s₁, none) => runColumns row0 (some r1) rest s₁
    | (s₁, some e) => (s₁, some e)) = _
  rw [hpc]

/-- C4 witness: the marker "OTHER" after a MULTIPLE_CHOICE question at
column 17. -/
theorem other_marker_sets_dropdown_freetext_witness :
    runColumns (List.replicate 18 "") (some (List.replicate 17 "" ++ ["OTHER"])) [17]
      { questions := [{ type := some SurveyQuestion.MULTIPLE_CHOICE, text := "Q" }] } =
      runColumns (List.replicate 18 "") (some (List.replicate 17 "" ++ ["OTHER"])) []
        { questions := updateLast (setType SurveyQuestion.DROPDOWN_FREETEXT)
            [{ type := some SurveyQuestion.MULTIPLE_CHOICE, text := "Q" }] } ∧
    (updateLast (setType SurveyQuestion.DROPDOWN_FREETEXT)
        [{ type := some SurveyQuestion.MULTIPLE_CHOICE, text := "Q" }]).map SurveyQuestion.choices =
      [({ type := some SurveyQuestion.MULTIPLE_CHOICE, text := "Q" } : SurveyQuestion)].map SurveyQuestion.choices :=
  other_marker_sets_dropdown_freetext (List.replicate 18 "")
    (List.replicate 17 "" ++ ["OTHER"]) []
    { questions := [{ type := some SurveyQuestion.MULTIPLE_CHOICE, text := "Q" }] } 17
    { type := some SurveyQuestion.MULTIPLE_CHOICE, text := "Q" } (by decide)
    ⟨"OTHER", by decide, by decide, by decide⟩ (by decide) (by decide)

/-- C5 counterexample: header cells ["Q", ""] and choice cells ["A", "A"]
after the 17 skipped columns.  Column 17 has a non-empty header cell and a
non-empty choice cell, the run raises nothing, yet the produced CHECKBOX_LIST
question ends the run with TWO choices whose text equals that column's choice
cell — not exactly one. -/
theorem checkbox_single_choice_cex :
    (parse_questions [List.replicate 17 "" ++ ["Q", ""], List.replicate 17 "" ++ ["A", "A"]] {}).2 = none ∧
    (parse_questions [List.replicate 17 "" ++ ["Q", ""], List.replicate 17 "" ++ ["A", "A"]] {}).1.questions.map
        (fun q => (q.type, q.choices.map SurveyChoice.text)) =
      [(some SurveyQuestion.CHECKBOX_LIST, ["A", "A"])] ∧
    ¬ ((parse_questions [List.replicate 17 "" ++ ["Q", ""], List.replicate 17 "" ++ ["A", "A"]] {}).1.questions.headD {}).choices.countP
        (fun ch => ch.text == "A") = 1 := by
  refine ⟨by decide, by decide, by decide⟩

/-- C5 (amended): a column with a non-empty header cell and a non-empty
choice cell produces, at the moment that column is processed, a
CHECKBOX_LIST question whose choice list holds exactly one entry, whose text
equals that column's choice cell; later columns may append further choices
to the same question. -/
theorem checkbox_question_single_choice_at_column
    (row0 r1 : List String) (s : Survey) (i : Nat) (hc cc : String)
    (hhead : row0[i]? = some hc) (hne : hc ≠ "")
    (hcell : r1[i]? = some cc) (hcne : cc ≠ "") :
    processColumn row0 (some r1) s i =
      ({ s with questions := s.questions ++ [checkboxQuestion hc cc] }, none) := by
  unfold processColumn
  rw [hhead]
  simp only [ne_eq, hne, not_false_eq_true, if_true, ite_true]
  rw [show pyIndexRow (some r1) i = Except.ok cc from by
    simp [pyIndexRow, pyIndex, hcell]]
  simp only [ne_eq, hcne, not_false_eq_true, if_true, ite_true]
  rw [updateLast_concat, updateLast_concat]
  rfl

/-- C5 witness: the amended single-choice theorem at the concrete column 17
with header cell "Q" and choice cell "A". -/
theorem checkbox_question_single_choice_at_column_witness :
    processColumn (List.replicate 17 "" ++ ["Q"]) (some (List.replicate 17 "" ++ ["A"])) {} 17 =
      ({ questions := [checkboxQuestion "Q" "A"] }, none) :=
  checkbox_question_single_choice_at_column (List.replicate 17 "" ++ ["Q"])
    (List.replicate 17 "" ++ ["A"]) {} 17 "Q" "A" (by decide) (by decide)
    (by decide) (by decide)

/-- C6: the code contains no MalformedHeader check at all.  A one-row input
with a short row succeeds silently instead of failing; a two-row input with
mismatched lengths (header longer than the choice row) raises a bare
IndexError, not a typed error. -/
theorem no_malformed_header_check :
    parse_questions [["T"]] {} = ({}, none) ∧
    (parse_questions [List.replicate 17 "" ++ ["Q"], []] {}).2 = some PyError.indexError := by
  refine ⟨by decide, by decide⟩

/-- C7: on a successful run from a survey with no questions, the produced
questions correspond, in order, to a strictly increasing sequence of column
indices whose non-empty header cells give their texts (left-to-right column
order), and each question's choices correspond, in order, to a strictly
increasing sequence of columns whose non-empty choice cells give their texts
(left-to-right order among its choice-bearing columns). -/
theorem parse_questions_preserves_column_order
    (row0 row1 : List String) (rest : List (List String)) (s0 s' : Survey)
    (hs0 : s0.questions = [])
    (hrun : parse_questions (row0 :: row1 :: rest) s0 = (s', none)) :
    ∃ cols : List Nat, List.Chain' (· < ·) cols ∧
      List.Forall₂ (fun c q => row0[c]? = some q.text ∧ q.text ≠ "") cols s'.questions ∧
      ∀ q ∈ s'.questions, ∃ cis : List Nat, List.Chain' (· < ·) cis ∧
        List.Forall₂ (fun c ch => row1[c]? = some ch.text ∧ ch.text ≠ "") cis q.choices := by
  have hred : parse_questions (row0 :: row1 :: rest) s0 =
      runColumns row0 (some row1) (List.range' 17 (row0.length - 17)) s0 := rfl
  rw [hred] at hrun
  have hinv0 : OrderInv row0 row1 s0 17 := by
    refine ⟨[], List.chain'_nil, by simp, ?_, ?_⟩
    · rw [hs0]; exact List.Forall₂.nil
    · intro q hq; rw [hs0] at hq; exact absurd hq (List.not_mem_nil q)
  obtain ⟨B', hinv'⟩ := runColumns_orderInv (List.range' 17 (row0.length - 17)) s0 s' 17
    (List.pairwise_lt_range' 17 (row0.length - 17))
    (fun j hj => (List.mem_range'_1.1 hj).1) hinv0 hrun
  obtain ⟨cols, hchain, _, hf2, hch⟩ := hinv'
  refine ⟨cols, hchain, hf2, ?_⟩
  intro q hq
  obtain ⟨cis, hcis1, _, hcis3⟩ := hch q hq
  exact ⟨cis, hcis1, hcis3⟩

/-- C7 witness: the concrete input with one CHECKBOX_LIST question "Q" and
its inline choice "A" at column 17. -/
theorem parse_questions_preserves_column_order_witness :
    ∃ cols : List Nat, List.Chain' (· < ·) cols ∧
      List.Forall₂
        (fun c q => (List.replicate 17 "" ++ ["Q"])[c]? = some q.text ∧ q.text ≠ "") cols
        ({ questions := [checkboxQuestion "Q" "A"] } : Survey).questions ∧
      ∀ q ∈ ({ questions := [checkboxQuestion "Q" "A"] } : Survey).questions,
        ∃ cis : List Nat, List.Chain' (· < ·) cis ∧
          List.Forall₂
            (fun c ch => (List.replicate 17 "" ++ ["A"])[c]? = some ch.text ∧ ch.text ≠ "") cis
            q.choices :=
  parse_questions_preserves_column_order (List.replicate 17 "" ++ ["Q"])
    (List.replicate 17 "" ++ ["A"]) [] {} { questions := [checkboxQuestion "Q" "A"] }
    rfl (by decide)

/-- C8: `_parse_questions` inspects only columns 17 and onward.  First, with
a header row of length at most 17 the loop body never runs: the survey is
returned unchanged and no exception is raised.  Second, two runs whose rows
agree on every cell at indices 17 and onward (and whose header rows have
equal length) are identical, so non-empty cells in columns 0 through 16 are
always ignored. -/
theorem parse_questions_only_columns_from_17 :
    (∀ (rows : List (List String)) (row0 : List String) (s : Survey),
      rows[0]? = some row0 → row0.length ≤ 17 →
      parse_questions rows s = (s, none)) ∧
    (∀ (row0 row1 row0' row1' : List String) (rest rest' : List (List String)) (s : Survey),
      row0.length = row0'.length →
      (∀ i, 17 ≤ i → row0[i]? = row0'[i]?) →
      (∀ i, 17 ≤ i → row1[i]? = row1'[i]?) →
      parse_questions (row0 :: row1 :: rest) s = parse_questions (row0' :: row1' :: rest') s) := by
  constructor
  · intro rows row0 s h0 hlen
    have htake : (take 2 rows)[0]? = some row0 := by
      cases rows with
      | nil => simp at h0
      | cons r rs =>
        have hr : r = row0 := by simpa using h0
        subst hr
        simp [take]
    unfold parse_questions
    rw [htake]
    show runColumns row0 (take 2 rows)[1]? (List.range' 17 (row0.length - 17)) s = (s, none)
    have hz : row0.length - 17 = 0 := by omega
    rw [hz, List.range'_zero]
    rfl
  · intro row0 row1 row0' row1' rest rest' s hlen h0 h1
    have e1 : parse_questions (row0 :: row1 :: rest) s =
        runColumns row0 (some row1) (List.range' 17 (row0.length - 17)) s := rfl
    have e2 : parse_questions (row0' :: row1' :: rest') s =
        runColumns row0' (some row1') (List.range' 17 (row0'.length - 17)) s := rfl
    rw [e1, e2, ← hlen]
    refine runColumns_congr (List.range' 17 (row0.length - 17)) s ?_
    intro i hi
    have h17 : 17 ≤ i := (List.mem_range'_1.1 hi).1
    refine ⟨h0 i h17, ?_⟩
    simp [pyIndexRow, pyIndex, h1 i h17]

/-- C8 witness: a length-2 header row is left alone; two runs differing only
in columns 0 and 16 coincide. -/
theorem parse_questions_only_columns_from_17_witness :
    parse_questions [["x", "y"]] {} = ({}, none) ∧
    parse_questions [["a"] ++ List.replicate 16 "" ++ ["Q"], ["b"] ++ List.replicate 16 "" ++ ["A"]] {} =
      parse_questions [["c"] ++ List.replicate 15 "" ++ ["z", "Q"], ["d"] ++ List.replicate 16 "" ++ ["A"]] {} := by
  constructor
  · exact parse_questions_only_columns_from_17.1 [["x", "y"]] ["x", "y"] {} rfl (by decide)
  · refine parse_questions_only_columns_from_17.2 _ _ _ _ [] [] {} (by decide) ?_ ?_ <;>
      intro i hi <;> rcases Nat.lt_or_ge i 18 with h18 | h18
    · have hi17 : i = 17 := by omega
      subst hi17; decide
    · rw [List.getElem?_eq_none (by simp; omega), List.getElem?_eq_none (by simp; omega)]
    · have hi17 : i = 17 := by omega
      subst hi17; decide
    · rw [List.getElem?_eq_none (by simp; omega), List.getElem?_eq_none (by simp; omega)]

/-- C9: whatever the input and whether or not the run raises,
`_parse_questions` only rewrites the survey's questions list — and only by
appending (existing question texts survive as a prefix); `id`, `title`,
`comment` and `responses` are returned untouched. -/
theorem parse_questions_frame (iterable : List (List String)) (s : Survey) :
    (parse_questions iterable s).1.id = s.id ∧
    (parse_questions iterable s).1.title = s.title ∧
    (parse_questions iterable s).1.comment = s.comment ∧
    (parse_questions iterable s).1.responses = s.responses ∧
    ∃ t, (parse_questions iterable s).1.questions.map SurveyQuestion.text =
      s.questions.map SurveyQuestion.text ++ t := by
  obtain ⟨qs, hqs, t, ht⟩ := parse_questions_fst iterable s
  rw [hqs]
  exact ⟨rfl, rfl, rfl, rfl, t, ht⟩

/-- C10: after a run that raises nothing, starting from a survey all of whose
questions already carry an assigned type, every question in the survey has
one of the three class-constant types (never the constructor default None):
each question is appended with MULTIPLE_CHOICE already set, and the only
reassignments are to CHECKBOX_LIST and DROPDOWN_FREETEXT. -/
theorem parse_questions_types_assigned (iterable : List (List String)) (s : Survey)
    (hinit : ∀ q ∈ s.questions, validType q)
    (hok : (parse_questions iterable s).2 = none) :
    ∀ q ∈ (parse_questions iterable s).1.questions, validType q := by
  unfold parse_questions
  cases h0 : (take 2 iterable)[0]? with
  | none => exact hinit
  | some row0 =>
    exact runColumns_validType row0 (take 2 iterable)[1]?
      (List.range' 17 (row0.length - 17)) s hinit

/-- C10 witness: a successful concrete run out of the empty survey. -/
theorem parse_questions_types_assigned_witness :
    (∀ q ∈ ({} : Survey).questions, validType q) ∧
    (parse_questions [List.replicate 17 "" ++ ["Q"], List.replicate 18 ""] {}).2 = none ∧
    ∀ q ∈ (parse_questions [List.replicate 17 "" ++ ["Q"], List.replicate 18 ""] {}).1.questions,
      validType q :=
  ⟨by simp, by decide,
    parse_questions_types_assigned [List.replicate 17 "" ++ ["Q"], List.replicate 18 ""] {}
      (by simp) (by decide)⟩

example : pyLower "Other" = "other" := by decide

example :
    parse_questions
      [List.replicate 17 "" ++ ["Q", ""], List.replicate 17 "" ++ ["A", "A"]] {} =
    ({ questions := [{ type := some SurveyQuestion.CHECKBOX_LIST, text := "Q", choices := [{ text := "A" }, { text := "A" }] }] }, none) := by decide

end SmartSurvey
